import Mathlib

/-!
Verification development for the llm-mux gateway core.

The Go sources are shallowly embedded as Lean definitions:
machine integers become `Int`/`Nat`, `time.Time` instants and
`time.Duration` values become `Int` (seconds), pointer-typed optional
fields become `Option`, and Go maps become association lists.  Stateful
functions become pure state transformers.  Helper functions that the
repository only calls (their bodies live outside the provided tree) are
modelled from the specification and carry a doc comment saying so.
-/

/-- Go's byte-level prefix test (`strings.HasPrefix`, and the unrolled
byte comparisons in `toClaudeToolID`), embedded at the character level —
the two coincide for the ASCII prefixes the sources test. -/
def strStartsWith (s pre : String) : Bool :=
  pre.data.isPrefixOf s.data

/-- Go's byte-level suffix test (`strings.HasSuffix`), embedded at the
character level — the two coincide for the ASCII suffixes the sources
test. -/
def strEndsWith (s post : String) : Bool :=
  post.data.isSuffixOf s.data

namespace Provider

/-- Aggregated and per-model credential status.  The Go code is a string
enum; only the values the result-processing path writes are needed, plus
the zero value. -/
inductive AuthStatus where
  | unknown
  | active
  | error
deriving DecidableEq, Repr

/-- Error categories produced by the classifier.  The result-processing
code only branches on `CategoryUserError`, so the embedding collapses all
other categories into `other`. -/
inductive ErrCategory where
  | userError
  | other
deriving DecidableEq, Repr

/-- Upstream error as carried on a `Result` (`HTTPStatus` + `Message`). -/
structure ErrorInfo where
  httpStatus : Nat
  message : String
deriving DecidableEq, Repr

/-- `QuotaState` from the credential data model. -/
structure QuotaState where
  exceeded : Bool
  reason : String
  nextRecoverAt : Int
  backoffLevel : Int
deriving DecidableEq, Repr

/-- Per-(auth, model) health state (`ModelState`). -/
structure ModelState where
  unavailable : Bool
  status : AuthStatus
  nextRetryAfter : Int
  lastError : Option ErrorInfo
  statusMessage : String
  quota : QuotaState
  updatedAt : Int
deriving DecidableEq, Repr

/-- The Go zero value of `ModelState`, as created when a model is first
seen. -/
def ModelState.zero : ModelState :=
  { unavailable := false
    status := .unknown
    nextRetryAfter := 0
    lastError := none
    statusMessage := ""
    quota := { exceeded := false, reason := "", nextRecoverAt := 0, backoffLevel := 0 }
    updatedAt := 0 }

/-- Credential (`Auth`).  Only the fields the result-processing path
reads or writes are embedded; `attributes`, `proxy_url` and `created_at`
are never touched by `updateAuthState`.  The per-model map is an
association list. -/
structure Auth where
  id : String
  provider : String
  status : AuthStatus
  lastError : Option ErrorInfo
  statusMessage : String
  unavailable : Bool
  modelStates : List (String × ModelState)
  updatedAt : Int
deriving DecidableEq, Repr

/-- A `MarkResult` payload (`Result`).  `retryAfter` is the parsed
`Retry-After` duration in seconds. -/
structure Result where
  authID : String
  provider : String
  model : String
  success : Bool
  error : Option ErrorInfo
  retryAfter : Option Int
deriving DecidableEq, Repr

/-- Association-list lookup for the per-model state map. -/
def lookupState : List (String × ModelState) → String → Option ModelState
  | [], _ => none
  | (k, s) :: rest, m => if k = m then some s else lookupState rest m

/-- Association-list update (insert-or-replace) for the per-model state
map; mirrors writing through the Go map entry. -/
def setState : List (String × ModelState) → String → ModelState → List (String × ModelState)
  | [], m, s => [(m, s)]
  | (k, s0) :: rest, m, s =>
    if k = m then (m, s) :: rest else (k, s0) :: setState rest m s

/-- Modelled from the spec: `ensureModelState` is called by
`updateAuthState` but defined outside the provided tree.  Per the data
model it returns the per-model state for the given model id, creating the
zero-valued state when the model has not been seen. -/
def ensureModelState (auth : Auth) (model : String) : ModelState :=
  (lookupState auth.modelStates model).getD ModelState.zero

/-- The message carried by an optional error ("" when absent), as read by
`updateAuthState`. -/
def errMsgOf : Option ErrorInfo → String
  | some e => e.message
  | none => ""

/-- `statusCodeFromResult`: the HTTP status of the result's error, 0 when
there is no error.  The body is outside the provided tree; modelled from
the spec's status-transition table, which is keyed by the HTTP status. -/
def statusCodeFromResult : Option ErrorInfo → Nat
  | none => 0
  | some e => e.httpStatus

/-- `cloneError`: errors are plain values here, so a clone is the value
itself. -/
def cloneError (e : ErrorInfo) : ErrorInfo := e

/-- Modelled from the spec: `resetModelState` (body outside the provided
tree).  After a success the per-model `unavailable` flag is cleared,
`next_retry_after` is cleared (zero instant, hence ≤ now for any
non-negative clock), the error fields are cleared and the quota backoff
ladder is reset. -/
def resetModelState (st : ModelState) (now : Int) : ModelState :=
  { st with
    unavailable := false
    status := .active
    nextRetryAfter := 0
    lastError := none
    statusMessage := ""
    quota := { st.quota with exceeded := false, backoffLevel := 0 }
    updatedAt := now }

/-- Modelled from the spec: `clearQuotaGroupOnSuccess` (body outside the
provided tree).  Success on any model in a quota group clears the group's
`exceeded` flag and resumes its models; the group relation is declared in
the model registry and is passed here as `sameGroup`.  Returns the
updated auth and the list of other models whose quota flag was cleared. -/
def clearQuotaGroupOnSuccess (sameGroup : String → String → Bool)
    (auth : Auth) (model : String) (now : Int) : Auth × List String :=
  let cleared := auth.modelStates.filterMap fun kv =>
    if kv.1 ≠ model ∧ sameGroup model kv.1 ∧ kv.2.quota.exceeded then some kv.1 else none
  let states := auth.modelStates.map fun kv =>
    if kv.1 ≠ model ∧ sameGroup model kv.1 then
      (kv.1, { kv.2 with
        unavailable := false
        nextRetryAfter := 0
        quota := { kv.2.quota with exceeded := false, backoffLevel := 0 }
        updatedAt := now })
    else kv
  ({ auth with modelStates := states }, cleared)

/-- Modelled from the spec: `propagateQuotaToGroup` (body outside the
provided tree).  A 429 on one model propagates the quota state, with the
same `next_recover_at`, to the other models of its quota group; returns
the updated auth and the affected models. -/
def propagateQuotaToGroup (sameGroup : String → String → Bool)
    (auth : Auth) (model : String) (q : QuotaState) (next : Int) (now : Int) :
    Auth × List String :=
  let affected := auth.modelStates.filterMap fun kv =>
    if kv.1 ≠ model ∧ sameGroup model kv.1 then some kv.1 else none
  let states := auth.modelStates.map fun kv =>
    if kv.1 ≠ model ∧ sameGroup model kv.1 then
      (kv.1, { kv.2 with
        unavailable := true
        status := .error
        nextRetryAfter := next
        quota := q
        updatedAt := now })
    else kv
  ({ auth with modelStates := states }, affected)

/-- Modelled from the spec: `updateAggregatedAvailability` (body outside
the provided tree).  Recomputes the credential's aggregated availability
flag from the per-model states; per the spec's user-error rule it does
not touch `Status`, `LastError` or `StatusMessage`. -/
def updateAggregatedAvailability (auth : Auth) (_now : Int) : Auth :=
  { auth with
    unavailable := !auth.modelStates.isEmpty && auth.modelStates.all fun kv => kv.2.unavailable }

/-- Modelled from the spec: `hasModelError` (body outside the provided
tree).  True while some per-model state still records an error whose
retry window has not elapsed. -/
def hasModelError (auth : Auth) (now : Int) : Bool :=
  auth.modelStates.any fun kv =>
    decide (kv.2.status = AuthStatus.error) && decide (now < kv.2.nextRetryAfter)

/-- Modelled from the spec: `clearAuthStateOnSuccess` (body outside the
provided tree).  A success that carries no model id clears the
aggregated error state of the credential. -/
def clearAuthStateOnSuccess (auth : Auth) (now : Int) : Auth :=
  { auth with
    lastError := none
    statusMessage := ""
    status := .active
    unavailable := false
    updatedAt := now }

/-- Modelled from the spec: `applyAuthFailureState` (body outside the
provided tree).  A failure that carries no model id records the error
against the credential as a whole. -/
def applyAuthFailureState (auth : Auth) (e : Option ErrorInfo) (_retryAfter : Option Int)
    (now : Int) : Auth :=
  { auth with
    lastError := e
    statusMessage := errMsgOf e
    status := .error
    updatedAt := now }

/-- Modelled from the spec: `nextQuotaCooldown` (body outside the
provided tree).  The quota backoff ladder: level 0→1 min, 1→5 min,
2→15 min, 3→1 h, 4→6 h, saturating; returns the cooldown in seconds and
the next level. -/
def nextQuotaCooldown (level : Int) : Int × Int :=
  if level ≤ 0 then (60, 1)
  else if level = 1 then (300, 2)
  else if level = 2 then (900, 3)
  else if level = 3 then (3600, 4)
  else (21600, 4)

/-- `updateAuthState` (types.go): the per-result state transition applied
under the manager write lock.  `categorize` stands for `CategorizeError`
and `sameGroup` for the registry's quota-group relation, both defined
outside the provided tree.  The Go out-parameters
(`shouldResumeModel`, `shouldSuspendModel`, `suspendReason`,
`clearModelQuota`, `setModelQuota`) only drive registry notifications
performed outside the lock and are dropped here; the function returns
the updated credential. -/
def updateAuthState (categorize : Nat → String → ErrCategory)
    (sameGroup : String → String → Bool)
    (auth : Auth) (result : Result) (now : Int) : Auth :=
  if result.success then
    if result.model ≠ "" then
      let st := ensureModelState auth result.model
      let st := resetModelState st now
      let a1 := { auth with modelStates := setState auth.modelStates result.model st }
      let a2 := (clearQuotaGroupOnSuccess sameGroup a1 result.model now).1
      let a3 := updateAggregatedAvailability a2 now
      let a4 :=
        if !hasModelError a3 now then
          { a3 with lastError := none, statusMessage := "", status := AuthStatus.active }
        else a3
      { a4 with updatedAt := now }
    else
      clearAuthStateOnSuccess auth now
  else
    if result.model ≠ "" then
      let st0 := ensureModelState auth result.model
      let statusCode := statusCodeFromResult result.error
      let category := categorize statusCode (errMsgOf result.error)
      let st1 :=
        if category ≠ ErrCategory.userError then
          { st0 with unavailable := true, status := AuthStatus.error }
        else st0
      let st1 := { st1 with updatedAt := now }
      let stAuth : ModelState × Auth :=
        match result.error with
        | some e =>
          if category ≠ ErrCategory.userError then
            ({ st1 with lastError := some (cloneError e), statusMessage := e.message },
             { auth with lastError := some (cloneError e), statusMessage := e.message })
          else (st1, auth)
        | none => (st1, auth)
      let st2 := stAuth.1
      let a0 := stAuth.2
      let st3 :=
        if statusCode = 401 then
          { st2 with nextRetryAfter := now + 1800 }
        else if statusCode = 402 ∨ statusCode = 403 then
          { st2 with nextRetryAfter := now + 1800 }
        else if statusCode = 404 then
          { st2 with nextRetryAfter := now + 43200 }
        else if statusCode = 429 then
          let next :=
            match result.retryAfter with
            | some d => now + d
            | none =>
              let cooldown := (nextQuotaCooldown st2.quota.backoffLevel).1
              if cooldown > 0 then now + cooldown else 0
          let backoffLevel :=
            match result.retryAfter with
            | some _ => st2.quota.backoffLevel
            | none => (nextQuotaCooldown st2.quota.backoffLevel).2
          { st2 with
            nextRetryAfter := next
            quota :=
              { exceeded := true
                reason := "quota"
                nextRecoverAt := next
                backoffLevel := backoffLevel } }
        else if statusCode = 408 ∨ statusCode = 500 ∨ statusCode = 502 ∨
            statusCode = 503 ∨ statusCode = 504 then
          { st2 with nextRetryAfter := now + 60 }
        else
          { st2 with nextRetryAfter := now + 30 }
      let a1 := { a0 with modelStates := setState a0.modelStates result.model st3 }
      let a2 :=
        if statusCode = 429 then
          (propagateQuotaToGroup sameGroup a1 result.model st3.quota st3.nextRetryAfter now).1
        else a1
      let a3 :=
        if category ≠ ErrCategory.userError then { a2 with status := AuthStatus.error }
        else a2
      let a4 := { a3 with updatedAt := now }
      updateAggregatedAvailability a4 now
    else
      applyAuthFailureState auth result.error result.retryAfter now

end Provider

namespace StreamUtil

/-- A Go byte slice, abstracted to its length and capacity — the only
attributes `buffers.go` inspects or changes (`len`, `cap`, `[:0]`). -/
structure GoBuffer where
  length : Nat
  capacity : Nat
deriving DecidableEq, Repr

def smallBufferSize : Nat := 4 * 1024

def mediumBufferSize : Nat := 64 * 1024

def largeBufferSize : Nat := 1024 * 1024

/-- `BufferPool`: one `sync.Pool` per size class.  A `sync.Pool` is
modelled as a list of the buffers currently stored in it; `Get` may
return any stored buffer or a fresh one, which the embedding resolves to
"the most recently stored buffer when one exists" — one of the
behaviours the Go runtime permits. -/
structure BufferPool where
  small : List GoBuffer
  medium : List GoBuffer
  large : List GoBuffer
deriving DecidableEq, Repr

/-- `NewBufferPool()`: all classes empty; each class's `New` makes a
zero-length buffer of the class capacity (see `BufferPool.Get`). -/
def NewBufferPool : BufferPool := { small := [], medium := [], large := [] }

/-- `BufferPool.Get`: pick the class by the requested size, take a pooled
buffer (or the class's `New` buffer when the pool is empty); sizes above
the large class bypass pooling and allocate exactly `size`.  Returns the
buffer and the pool after removal. -/
def BufferPool.Get (p : BufferPool) (size : Nat) : GoBuffer × BufferPool :=
  if size ≤ smallBufferSize then
    match p.small with
    | [] => ({ length := 0, capacity := smallBufferSize }, p)
    | b :: rest => (b, { p with small := rest })
  else if size ≤ mediumBufferSize then
    match p.medium with
    | [] => ({ length := 0, capacity := mediumBufferSize }, p)
    | b :: rest => (b, { p with medium := rest })
  else if size ≤ largeBufferSize then
    match p.large with
    | [] => ({ length := 0, capacity := largeBufferSize }, p)
    | b :: rest => (b, { p with large := rest })
  else
    ({ length := 0, capacity := size }, p)

/-- `BufferPool.Put`: truncate to length 0, then store in the class whose
limit first covers the capacity; buffers above the large class are not
pooled. -/
def BufferPool.Put (p : BufferPool) (buf : GoBuffer) : BufferPool :=
  let buf := { buf with length := 0 }
  if buf.capacity ≤ smallBufferSize then { p with small := buf :: p.small }
  else if buf.capacity ≤ mediumBufferSize then { p with medium := buf :: p.medium }
  else if buf.capacity ≤ largeBufferSize then { p with large := buf :: p.large }
  else p

/-- An operation against the pool: a `Get` with a requested size, or a
`Put` of a buffer. -/
inductive PoolOp where
  | get (size : Nat)
  | put (buf : GoBuffer)
deriving DecidableEq, Repr

/-- Run a sequence of operations from a starting pool (the buffer a `Get`
returns is handed to the caller and leaves the pool). -/
def runOps : BufferPool → List PoolOp → BufferPool
  | p, [] => p
  | p, PoolOp.get size :: rest => runOps (p.Get size).2 rest
  | p, PoolOp.put buf :: rest => runOps (p.Put buf) rest

/-- A buffer is recycled when its capacity is one a `Get` can hand out:
exactly a class capacity, or above the large class (oversize buffers are
allocated at exactly the requested size and never pooled). -/
def RecycledCap (c : Nat) : Prop :=
  c = smallBufferSize ∨ c = mediumBufferSize ∨ c = largeBufferSize ∨ largeBufferSize < c

/-- Disciplined use of the pool: every `Put` hands back a buffer whose
capacity a previous `Get` could have produced, unmodified. -/
def DisciplinedOp : PoolOp → Prop
  | PoolOp.get _ => True
  | PoolOp.put buf => RecycledCap buf.capacity

/-- Pool invariant: every stored buffer has length 0 and exactly its
class's capacity. -/
def WF (p : BufferPool) : Prop :=
  (∀ b ∈ p.small, b.length = 0 ∧ b.capacity = smallBufferSize) ∧
  (∀ b ∈ p.medium, b.length = 0 ∧ b.capacity = mediumBufferSize) ∧
  (∀ b ∈ p.large, b.length = 0 ∧ b.capacity = largeBufferSize)

/-- The placement contract of `Put`: a class either keeps its contents
or gains exactly the truncated buffer, and a class only gains it when its
limit covers the buffer's capacity (so never a class smaller than the
buffer); capacities above the large class are not pooled at all. -/
def PutPlacement (p : BufferPool) (buf : GoBuffer) : Prop :=
  ((p.Put buf).small = p.small ∨
      (buf.capacity ≤ smallBufferSize ∧
        (p.Put buf).small = { buf with length := 0 } :: p.small)) ∧
  ((p.Put buf).medium = p.medium ∨
      (buf.capacity ≤ mediumBufferSize ∧
        (p.Put buf).medium = { buf with length := 0 } :: p.medium)) ∧
  ((p.Put buf).large = p.large ∨
      (buf.capacity ≤ largeBufferSize ∧
        (p.Put buf).large = { buf with length := 0 } :: p.large)) ∧
  (largeBufferSize < buf.capacity → p.Put buf = p)

end StreamUtil

namespace Registry

/-- `FamilyMember` from model_families.go. -/
structure FamilyMember where
  provider : String
  modelID : String
  priority : Int
deriving DecidableEq, Repr

/-- `ModelFamilies` from model_families.go, as an association list. -/
def ModelFamilies : List (String × List FamilyMember) :=
  [ ("claude-sonnet-4-5",
     [ { provider := "kiro", modelID := "claude-sonnet-4-5", priority := 1 },
       { provider := "antigravity", modelID := "gemini-claude-sonnet-4-5", priority := 1 },
       { provider := "claude", modelID := "claude-sonnet-4-5-20250929", priority := 2 } ]),
    ("claude-sonnet-4-5-thinking",
     [ { provider := "antigravity", modelID := "gemini-claude-sonnet-4-5-thinking", priority := 1 },
       { provider := "claude", modelID := "claude-sonnet-4-5-thinking", priority := 2 } ]),
    ("claude-opus-4-5",
     [ { provider := "kiro", modelID := "claude-opus-4-5-20251101", priority := 1 },
       { provider := "claude", modelID := "claude-opus-4-5-20251101", priority := 2 } ]),
    ("claude-opus-4-5-thinking",
     [ { provider := "antigravity", modelID := "gemini-claude-opus-4-5-thinking", priority := 1 },
       { provider := "claude", modelID := "claude-opus-4-5-thinking", priority := 2 } ]),
    ("claude-sonnet-4",
     [ { provider := "kiro", modelID := "claude-sonnet-4-20250514", priority := 1 },
       { provider := "claude", modelID := "claude-sonnet-4-20250514", priority := 2 } ]),
    ("claude-3-7-sonnet",
     [ { provider := "kiro", modelID := "claude-3-7-sonnet-20250219", priority := 1 },
       { provider := "claude", modelID := "claude-3-7-sonnet-20250219", priority := 2 } ]),
    ("gemini-2.5-pro",
     [ { provider := "gemini-cli", modelID := "gemini-2.5-pro", priority := 1 },
       { provider := "antigravity", modelID := "gemini-2.5-pro", priority := 1 },
       { provider := "aistudio", modelID := "gemini-2.5-pro", priority := 2 },
       { provider := "gemini", modelID := "gemini-2.5-pro", priority := 3 } ]),
    ("gemini-2.5-flash",
     [ { provider := "gemini-cli", modelID := "gemini-2.5-flash", priority := 1 },
       { provider := "antigravity", modelID := "gemini-2.5-flash", priority := 1 },
       { provider := "aistudio", modelID := "gemini-2.5-flash", priority := 2 },
       { provider := "gemini", modelID := "gemini-2.5-flash", priority := 3 } ]),
    ("gemini-2.5-flash-lite",
     [ { provider := "gemini-cli", modelID := "gemini-2.5-flash-lite", priority := 1 },
       { provider := "antigravity", modelID := "gemini-2.5-flash-lite", priority := 1 },
       { provider := "aistudio", modelID := "gemini-2.5-flash-lite", priority := 2 },
       { provider := "gemini", modelID := "gemini-2.5-flash-lite", priority := 3 } ]),
    ("gemini-3-pro-preview",
     [ { provider := "gemini-cli", modelID := "gemini-3-pro-preview", priority := 1 },
       { provider := "antigravity", modelID := "gemini-3-pro-preview", priority := 1 },
       { provider := "aistudio", modelID := "gemini-3-pro-preview", priority := 2 },
       { provider := "gemini", modelID := "gemini-3-pro-preview", priority := 3 } ]),
    ("gpt-5.1-codex-max",
     [ { provider := "github-copilot", modelID := "gpt-5.1-codex-max", priority := 1 },
       { provider := "openai", modelID := "gpt-5.1-codex-max", priority := 2 } ]) ]

/-- Map lookup on the family table. -/
def lookupFamily : List (String × List FamilyMember) → String → Option (List FamilyMember)
  | [], _ => none
  | (k, fam) :: rest, c => if k = c then some fam else lookupFamily rest c

/-- The members whose provider is in the available set (Go's
`availableSet[member.Provider]` filter, in family order). -/
def availableMembers (family : List FamilyMember) (availableProviders : List String) :
    List FamilyMember :=
  family.filter fun m => availableProviders.contains m.provider

/-- The lowest priority number among `m0 :: rest` (Go collects the map's
keys and takes the head after `sort.Ints`). -/
def minPriority (m0 : FamilyMember) (rest : List FamilyMember) : Int :=
  (rest.map FamilyMember.priority).foldl min m0.priority

/-- `ResolveModelFamily` (model_families.go).  Go groups the available
members in a `map[int][]FamilyMember`, sorts the priority keys ascending
and picks a uniformly random member of the first group; appending into a
map bucket in family order makes that group exactly the ordered filter at
the minimum priority, and `rand.Intn` is abstracted into the `pick`
argument reduced mod the group size (covering every value `rand.Intn`
can produce).  Results mirror Go's `(provider, modelID, found)`. -/
def ResolveModelFamily (table : List (String × List FamilyMember))
    (canonicalID : String) (availableProviders : List String) (pick : Nat) :
    String × String × Bool :=
  match lookupFamily table canonicalID with
  | none => ("", canonicalID, false)
  | some family =>
    match availableMembers family availableProviders with
    | [] => ("", canonicalID, false)
    | m0 :: rest =>
      let best := minPriority m0 rest
      let group := (m0 :: rest).filter fun m => m.priority = best
      let selected := group.getD (pick % group.length) m0
      (selected.provider, selected.modelID, true)

end Registry

namespace Preprocess

/-- `ir.ThinkingConfig` as used by the preprocess package:
`IncludeThoughts bool` and `ThinkingBudget *int32`. -/
structure PThinking where
  includeThoughts : Bool
  thinkingBudget : Option Int
deriving DecidableEq, Repr

/-- The slice of `ir.UnifiedChatRequest` that the three preprocess passes
read or write: `Model`, `MaxTokens`, `CandidateCount`, `Thinking`.
(The Antigravity tool-schema cleanup touches only `Tools`, which no other
pass reads, and is outside the provided tree; it is not embedded.) -/
structure PRequest where
  model : String
  maxTokens : Option Int
  candidateCount : Option Int
  thinking : Option PThinking
deriving DecidableEq, Repr

/-- `registry.ModelInfo.Thinking`: the thinking-budget support entry. -/
structure ThinkingSupport where
  min : Int
  max : Int
  zeroAllowed : Bool
  dynamicAllowed : Bool
deriving DecidableEq, Repr

/-- `registry.ModelInfo`, restricted to the fields preprocess reads. -/
structure ModelInfo where
  outputTokenLimit : Int
  maxCompletionTokens : Int
  thinking : Option ThinkingSupport
deriving DecidableEq, Repr

/-- The effective output limit of `clampMaxTokens`: `OutputTokenLimit`,
falling back to `MaxCompletionTokens` when it is zero. -/
def limitOf (i : ModelInfo) : Int :=
  if i.outputTokenLimit = 0 then i.maxCompletionTokens else i.outputTokenLimit

/-- The `MaxTokens` transform of `clampMaxTokens` (limits.go). -/
def mtClamp (mt : Option Int) (info : Option ModelInfo) : Option Int :=
  match mt, info with
  | none, _ => mt
  | _, none => mt
  | some v, some i => if limitOf i > 0 ∧ v > limitOf i then some (limitOf i) else mt

/-- `clampMaxTokens` (limits.go). -/
def clampMaxTokens (req : PRequest) (info : Option ModelInfo) : PRequest :=
  { req with maxTokens := mtClamp req.maxTokens info }

/-- The `CandidateCount` transform of `clampCandidateCount` (limits.go):
raise below 1 to 1, then cap above 8 at 8. -/
def ccClamp (cc : Option Int) : Option Int :=
  match cc with
  | none => none
  | some c =>
    let c := if c < 1 then 1 else c
    let c := if c > 8 then 8 else c
    some c

/-- `clampCandidateCount` (limits.go); its `info` parameter is unused in
the source as well. -/
def clampCandidateCount (req : PRequest) (_info : Option ModelInfo) : PRequest :=
  { req with candidateCount := ccClamp req.candidateCount }

/-- `applyLimits` (limits.go). -/
def applyLimits (req : PRequest) (info : Option ModelInfo) : PRequest :=
  clampCandidateCount (clampMaxTokens req info) info

/-- Modelled from the spec: `ir.IsClaudeModel` (body outside the provided
tree) — whether the model is a Claude variant, read off the model name. -/
def isClaudeModel (model : String) : Bool :=
  strStartsWith model ("claude")

/-- The `MaxTokens` transform of `applyClaudeDefaults` (defaults.go):
for Claude models an unset or zero `MaxTokens` becomes the default.
`ir.ClaudeDefaultMaxTokens` is defined outside the provided tree and is
threaded as a parameter. -/
def defMT (claudeDefaultMaxTokens : Int) (model : String) (mt : Option Int) : Option Int :=
  if isClaudeModel model then
    match mt with
    | none => some claudeDefaultMaxTokens
    | some v => if v = 0 then some claudeDefaultMaxTokens else mt
  else mt

/-- `applyClaudeDefaults` (defaults.go), minus the Antigravity tool
cleanup (see `PRequest`). -/
def applyClaudeDefaults (claudeDefaultMaxTokens : Int) (req : PRequest) : PRequest :=
  { req with maxTokens := defMT claudeDefaultMaxTokens req.model req.maxTokens }

/-- `applyProviderDefaults` (defaults.go). -/
def applyProviderDefaults (claudeDefaultMaxTokens : Int) (req : PRequest)
    (_info : Option ModelInfo) : PRequest :=
  applyClaudeDefaults claudeDefaultMaxTokens req

/-- The `(Model, Thinking)` transform of `promoteToThinkingModel`
(thinking.go): on a Claude `-thinking` model, default the budget to 1024
and force `IncludeThoughts`; on a plain Claude model whose `-thinking`
variant exists in the registry, rename the model.  The returned `Bool` is
the function's result (true iff the model was promoted). -/
def thinkPromote (getModelInfo : String → Option ModelInfo) (model : String)
    (th : Option PThinking) : String × Option PThinking × Bool :=
  match th with
  | none => (model, th, false)
  | some tc =>
    if ¬ isClaudeModel model then (model, th, false)
    else if strEndsWith model ("-thinking") then
      (model, some { includeThoughts := true, thinkingBudget := some (tc.thinkingBudget.getD 1024) },
       false)
    else
      let thinkingModel := model ++ ("-thinking")
      if (getModelInfo thinkingModel).isSome then (thinkingModel, th, true)
      else (model, th, false)

/-- `promoteToThinkingModel` (thinking.go); the registry singleton's
`GetModelInfo` is threaded as `getModelInfo`. -/
def promoteToThinkingModel (getModelInfo : String → Option ModelInfo) (req : PRequest) :
    PRequest × Bool :=
  let r := thinkPromote getModelInfo req.model req.thinking
  ({ req with model := r.1, thinking := r.2.1 }, r.2.2)

/-- The budget arithmetic of `normalizeThinkingBudget` (thinking.go).
`Int.tdiv` is Go's `/` on int (truncation toward zero). -/
def budgetNorm (b : Int) (t : ThinkingSupport) : Int :=
  let b := if b = -1 ∧ ¬ t.dynamicAllowed then Int.tdiv (t.min + t.max) 2 else b
  let b := if b = 0 ∧ ¬ t.zeroAllowed then t.min else b
  if b > 0 then
    let b := if b < t.min then t.min else b
    if b > t.max then t.max else b
  else b

/-- The per-config transform of `normalizeThinkingBudget` (thinking.go):
the early returns leave the config unchanged unless a budget is set and
the registry entry carries a thinking block. -/
def normTC (tc : PThinking) (info : Option ModelInfo) : PThinking :=
  match tc.thinkingBudget with
  | none => tc
  | some b =>
    match info with
    | none => tc
    | some i =>
      match i.thinking with
      | none => tc
      | some t => { tc with thinkingBudget := some (budgetNorm b t) }

/-- The `Thinking` transform of `normalizeThinkingBudget` (thinking.go):
a no-op when the request has no thinking config (`req.Thinking == nil`). -/
def thinkNorm (th : Option PThinking) (info : Option ModelInfo) : Option PThinking :=
  match th with
  | none => none
  | some tc => some (normTC tc info)

/-- `normalizeThinkingBudget` (thinking.go). -/
def normalizeThinkingBudget (req : PRequest) (info : Option ModelInfo) : PRequest :=
  { req with thinking := thinkNorm req.thinking info }

/-- `applyThinkingNormalization` (thinking.go). -/
def applyThinkingNormalization (getModelInfo : String → Option ModelInfo) (req : PRequest)
    (info : Option ModelInfo) : PRequest :=
  normalizeThinkingBudget (promoteToThinkingModel getModelInfo req).1 info

/-- Modelled from the spec: the preprocess entry point is outside the
provided tree.  §4.6.4 orders the passes as the limits clamps, the
provider defaults, then thinking normalisation, each against the registry
entry of the request's model at that point (the model is only changed by
the final pass). -/
def preprocess (getModelInfo : String → Option ModelInfo) (claudeDefaultMaxTokens : Int)
    (req : PRequest) : PRequest :=
  let req := applyLimits req (getModelInfo req.model)
  let req := applyProviderDefaults claudeDefaultMaxTokens req (getModelInfo req.model)
  applyThinkingNormalization getModelInfo req (getModelInfo req.model)

end Preprocess

namespace IR

/-- `toClaudeToolID` (response builder file).  The Go byte tests
`id[0]=='t' … id[5]=='_'` under `len(id) > 6` are an ASCII prefix test,
so they coincide with `startsWith` plus the length guard (the prefixes
are 6 resp. 5 one-byte characters). -/
def toClaudeToolID (id : String) : String :=
  if id.length > 6 ∧ strStartsWith id ("toolu_") then id
  else if id.length > 5 ∧ strStartsWith id ("call_") then "toolu_" ++ id.drop 5
  else "toolu_" ++ id

/-- Message roles of the unified IR. -/
inductive Role where
  | user
  | assistant
  | system
  | tool
deriving DecidableEq, Repr

/-- Content-part tags of the unified IR. -/
inductive ContentType where
  | text
  | reasoning
  | image
  | file
  | toolResult
  | executableCode
  | codeResult
deriving DecidableEq, Repr

/-- `ir.ImagePart`. -/
structure ImagePart where
  mimeType : String
  data : String
  url : String
deriving DecidableEq, Repr

/-- `ir.CodeExecutionPart`. -/
structure CodeExecutionPart where
  language : String
  code : String
  outcome : String
  output : String
deriving DecidableEq, Repr

/-- `ir.ContentPart`, restricted to the payload slots the response
builder reads. -/
structure ContentPart where
  type : ContentType
  text : String
  reasoning : String
  thoughtSignature : String
  image : Option ImagePart
  codeExecution : Option CodeExecutionPart
deriving DecidableEq, Repr

/-- `ir.ToolCall`, restricted to the fields the response builder reads. -/
structure ToolCall where
  id : String
  name : String
  args : String
deriving DecidableEq, Repr

/-- `ir.Message`. -/
structure Message where
  role : Role
  content : List ContentPart
  toolCalls : List ToolCall
deriving DecidableEq, Repr

/-- `ir.Usage`, restricted to the fields `BuildUsageMap` reads. -/
structure Usage where
  promptTokens : Int
  completionTokens : Int
  totalTokens : Int
deriving DecidableEq, Repr

/-- Modelled from the spec: `CombineTextParts` (body outside the provided
tree) — the concatenation, in order, of the text payloads of the
message's text parts. -/
def CombineTextParts (msg : Message) : String :=
  msg.content.foldl (fun acc p => if p.type = ContentType.text then acc ++ p.text else acc) ""

/-- A Claude-format content part as built by `BuildClaudeContentParts`;
each Go `map[string]interface{}` shape becomes a tagged constructor. -/
inductive ClaudePart where
  | thinking (content : String)
  | text (content : String)
  | toolUse (id name input : String)
deriving DecidableEq, Repr

/-- A Gemini-format content part as built by `BuildGeminiContentParts`;
the optional `thoughtSignature` key becomes an `Option`. -/
inductive GeminiPart where
  | text (content : String) (thought : Bool) (signature : Option String)
  | inlineData (mimeType data : String)
  | executableCode (language code : String)
  | codeExecutionResult (outcome output : String)
  | functionCall (name argsJSON : String)
deriving DecidableEq, Repr

/-- `ResponseBuilder`. -/
structure ResponseBuilder where
  messages : List Message
  usage : Option Usage
  model : String
deriving DecidableEq, Repr

/-- `NewResponseBuilder`. -/
def NewResponseBuilder (messages : List Message) (usage : Option Usage) (model : String) :
    ResponseBuilder :=
  { messages := messages, usage := usage, model := model }

/-- `ResponseBuilder.GetLastMessage`: the last message, or `none` when
the list is empty. -/
def ResponseBuilder.GetLastMessage (b : ResponseBuilder) : Option Message :=
  b.messages.getLast?

/-- `ResponseBuilder.HasContent`. -/
def ResponseBuilder.HasContent (b : ResponseBuilder) : Bool :=
  match b.GetLastMessage with
  | some msg => msg.content.length != 0 || msg.toolCalls.length != 0
  | none => false

/-- `ResponseBuilder.GetTextContent`. -/
def ResponseBuilder.GetTextContent (b : ResponseBuilder) : String :=
  match b.GetLastMessage with
  | some msg => CombineTextParts msg
  | none => ""

/-- `ResponseBuilder.GetToolCalls`. -/
def ResponseBuilder.GetToolCalls (b : ResponseBuilder) : List ToolCall :=
  match b.GetLastMessage with
  | some msg => msg.toolCalls
  | none => []

/-- `ResponseBuilder.HasToolCalls`. -/
def ResponseBuilder.HasToolCalls (b : ResponseBuilder) : Bool :=
  b.GetToolCalls.length != 0

/-- `ResponseBuilder.DetermineFinishReason`. -/
def ResponseBuilder.DetermineFinishReason (b : ResponseBuilder) : String :=
  if b.GetToolCalls.length != 0 then "tool_calls" else "stop"

/-- The `tool_use` input of `BuildClaudeContentParts`: the raw arguments
when non-empty, non-"\x7b\x7d" and valid JSON, else the empty object.
`json.Unmarshal` success is abstracted into the `jsonValid` parameter;
the parsed value is carried as its source text. -/
def claudeToolInput (jsonValid : String → Bool) (args : String) : String :=
  if args ≠ "" ∧ args ≠ "\x7b\x7d" ∧ jsonValid args then args else "\x7b\x7d"

/-- `ResponseBuilder.BuildClaudeContentParts`: thinking parts first, then
text parts, then tool calls. -/
def ResponseBuilder.BuildClaudeContentParts (jsonValid : String → Bool)
    (b : ResponseBuilder) : List ClaudePart :=
  match b.GetLastMessage with
  | none => []
  | some msg =>
    let thinkingParts := msg.content.filterMap fun p =>
      if p.type = ContentType.reasoning ∧ p.reasoning ≠ "" then
        some (ClaudePart.thinking p.reasoning)
      else none
    let textParts := msg.content.filterMap fun p =>
      if p.type = ContentType.text ∧ p.text ≠ "" then some (ClaudePart.text p.text)
      else none
    let toolParts := msg.toolCalls.map fun tc =>
      ClaudePart.toolUse (toClaudeToolID tc.id) tc.name (claudeToolInput jsonValid tc.args)
    thinkingParts ++ textParts ++ toolParts

/-- The per-part case switch of `BuildGeminiContentParts` (original order
preserved; empty payloads skipped). -/
def geminiPartOf (p : ContentPart) : Option GeminiPart :=
  match p.type with
  | ContentType.reasoning =>
    if p.reasoning ≠ "" then
      some (GeminiPart.text p.reasoning true
        (if p.thoughtSignature ≠ "" then some p.thoughtSignature else none))
    else none
  | ContentType.text =>
    if p.text ≠ "" then
      some (GeminiPart.text p.text false
        (if p.thoughtSignature ≠ "" then some p.thoughtSignature else none))
    else none
  | ContentType.image =>
    match p.image with
    | some img => if img.data ≠ "" then some (GeminiPart.inlineData img.mimeType img.data) else none
    | none => none
  | ContentType.executableCode =>
    match p.codeExecution with
    | some ce => if ce.code ≠ "" then some (GeminiPart.executableCode ce.language ce.code) else none
    | none => none
  | ContentType.codeResult =>
    match p.codeExecution with
    | some ce => some (GeminiPart.codeExecutionResult ce.outcome ce.output)
    | none => none
  | _ => none

/-- `ResponseBuilder.BuildGeminiContentParts`: content parts in original
order, then tool calls as `functionCall` parts (`ParseToolCallArgs` is
abstracted to the argument text it parses). -/
def ResponseBuilder.BuildGeminiContentParts (b : ResponseBuilder) : List GeminiPart :=
  match b.GetLastMessage with
  | none => []
  | some msg =>
    msg.content.filterMap geminiPartOf ++
      msg.toolCalls.map fun tc => GeminiPart.functionCall tc.name tc.args

end IR

/-! ### Theorems -/

/-- C4 counterexample: the claim says an id with a leading `call_` has
that prefix replaced by `toolu_`, so on the bare id `call_` it predicts
`toolu_`; the code instead prepends, producing `toolu_call_` (the
replacement branch requires at least one character after the prefix). -/
theorem C4_counterexample :
    IR.toClaudeToolID ("call_") = ("toolu_call_") ∧
      IR.toClaudeToolID ("call_") ≠ ("toolu_") := by
  constructor
  · rfl
  · decide

/-- C4 (amended): a `call_` id with at least one character after the
prefix has the prefix replaced by `toolu_`; a `toolu_` id with at least
one character after the prefix passes through; an id starting with
neither prefix — and in particular any id of at most 6 characters not
starting with `call_`, which covers the bare `toolu_` — has `toolu_`
prepended. -/
theorem C4_toClaudeToolID_rule (id : String) :
    (strStartsWith id ("toolu_") = true → 6 < id.length →
      IR.toClaudeToolID id = id) ∧
    (strStartsWith id ("call_") = true → strStartsWith id ("toolu_") = false → 5 < id.length →
      IR.toClaudeToolID id = "toolu_" ++ id.drop 5) ∧
    (strStartsWith id ("toolu_") = false → strStartsWith id ("call_") = false →
      IR.toClaudeToolID id = "toolu_" ++ id) ∧
    (strStartsWith id ("call_") = false → id.length ≤ 6 →
      IR.toClaudeToolID id = "toolu_" ++ id) := by
  refine ⟨?_, ?_, ?_, ?_⟩ <;> intro h1 h2 <;> try intro h3
  · simp [IR.toClaudeToolID, h1, h2]
  · simp [IR.toClaudeToolID, h1, h2, h3]
  · simp [IR.toClaudeToolID, h1, h2]
  · simp [IR.toClaudeToolID, h1]
    omega

/-- C4 witness: the rule at the concrete ids `call_abc`, `toolu_x` and
`abc`. -/
theorem C4_toClaudeToolID_rule_witness :
    IR.toClaudeToolID ("call_abc") = "toolu_" ++ ("call_abc").drop 5 ∧
      IR.toClaudeToolID ("toolu_x") = ("toolu_x") ∧
      IR.toClaudeToolID ("abc") = "toolu_" ++ ("abc") := by
  refine ⟨?_, ?_, ?_⟩
  · exact (C4_toClaudeToolID_rule ("call_abc")).2.1 (by decide) (by decide) (by decide)
  · exact (C4_toClaudeToolID_rule ("toolu_x")).1 (by decide) (by decide)
  · exact (C4_toClaudeToolID_rule ("abc")).2.2.1 (by decide) (by decide)

/-- C6: with `thinking.budget = -1` and `dynamic_allowed = false` on a
registry entry with a sane range (`0 ≤ min ≤ max`), normalisation
resolves the budget to the truncated midpoint `(min+max)/2`, and to `min`
when that midpoint is ≤ 0 and `zero_allowed = false`. -/
theorem C6_dynamic_budget_resolution (req : Preprocess.PRequest)
    (tc : Preprocess.PThinking) (i : Preprocess.ModelInfo) (t : Preprocess.ThinkingSupport)
    (hth : req.thinking = some tc) (hb : tc.thinkingBudget = some (-1))
    (hi : i.thinking = some t) (hdyn : t.dynamicAllowed = false)
    (hmin : 0 ≤ t.min) (hmm : t.min ≤ t.max) :
    (Preprocess.normalizeThinkingBudget req (some i)).thinking =
      some { tc with thinkingBudget := some (if
          Int.tdiv (t.min + t.max) 2 ≤ 0 ∧ t.zeroAllowed = false then t.min
          else Int.tdiv (t.min + t.max) 2) } := by
  have hdivEq : Int.tdiv (t.min + t.max) 2 = (t.min + t.max) / 2 :=
    Int.tdiv_eq_ediv (by omega) (by omega)
  have hmid0 : 0 ≤ (t.min + t.max) / 2 := by omega
  have hmidlo : t.min ≤ (t.min + t.max) / 2 := by omega
  have hmidhi : (t.min + t.max) / 2 ≤ t.max := by omega
  simp only [Preprocess.normalizeThinkingBudget, Preprocess.thinkNorm, Preprocess.normTC,
    hth, hb, hi]
  unfold Preprocess.budgetNorm
  rcases Bool.eq_false_or_eq_true t.zeroAllowed with hz | hz <;>
    simp only [hdivEq, hdyn, hz, Bool.false_eq_true, not_false_eq_true, and_true, and_false,
      if_false, if_true, not_true_eq_false, reduceCtorEq] <;>
    split_ifs <;> first | rfl | (exfalso; omega)

/-- C6 witness: the rule at a request with budget −1 against the range
[100, 1000] (resolving to 550) and at the degenerate range [0, 0] with
`zero_allowed = false` (resolving to min = 0). -/
theorem C6_dynamic_budget_resolution_witness :
    (Preprocess.normalizeThinkingBudget
        { model := "m", maxTokens := none, candidateCount := none,
          thinking := some { includeThoughts := false, thinkingBudget := some (-1) } }
        (some { outputTokenLimit := 0, maxCompletionTokens := 0,
                thinking := some { min := 100, max := 1000,
                                   zeroAllowed := false, dynamicAllowed := false } })).thinking =
      some { includeThoughts := false, thinkingBudget := some 550 } ∧
    (Preprocess.normalizeThinkingBudget
        { model := "m", maxTokens := none, candidateCount := none,
          thinking := some { includeThoughts := false, thinkingBudget := some (-1) } }
        (some { outputTokenLimit := 0, maxCompletionTokens := 0,
                thinking := some { min := 0, max := 0,
                                   zeroAllowed := false, dynamicAllowed := false } })).thinking =
      some { includeThoughts := false, thinkingBudget := some 0 } := by
  constructor
  · have h := C6_dynamic_budget_resolution
      { model := "m", maxTokens := none, candidateCount := none,
        thinking := some { includeThoughts := false, thinkingBudget := some (-1) } }
      { includeThoughts := false, thinkingBudget := some (-1) }
      { outputTokenLimit := 0, maxCompletionTokens := 0,
        thinking := some { min := 100, max := 1000,
                           zeroAllowed := false, dynamicAllowed := false } }
      { min := 100, max := 1000, zeroAllowed := false, dynamicAllowed := false }
      rfl rfl rfl rfl (by decide) (by decide)
    simpa using h
  · have h := C6_dynamic_budget_resolution
      { model := "m", maxTokens := none, candidateCount := none,
        thinking := some { includeThoughts := false, thinkingBudget := some (-1) } }
      { includeThoughts := false, thinkingBudget := some (-1) }
      { outputTokenLimit := 0, maxCompletionTokens := 0,
        thinking := some { min := 0, max := 0,
                           zeroAllowed := false, dynamicAllowed := false } }
      { min := 0, max := 0, zeroAllowed := false, dynamicAllowed := false }
      rfl rfl rfl rfl (by decide) (by decide)
    simpa using h

/-- Lookup after an insert-or-replace at the same key. -/
theorem lookupState_setState_self (l : List (String × Provider.ModelState)) (m : String)
    (s : Provider.ModelState) :
    Provider.lookupState (Provider.setState l m s) m = some s := by
  induction l with
  | nil => simp [Provider.setState, Provider.lookupState]
  | cons kv rest ih =>
    obtain ⟨k, s0⟩ := kv
    by_cases h : k = m
    · simp [Provider.setState, Provider.lookupState, h]
    · simp [Provider.setState, Provider.lookupState, h, ih]

/-- Lookup is unchanged by a map that preserves keys and fixes every
entry at the looked-up key. -/
theorem lookupState_map_skip (m : String) (g : String × Provider.ModelState → String × Provider.ModelState)
    (hkey : ∀ kv, (g kv).1 = kv.1) (hfix : ∀ kv, kv.1 = m → g kv = kv) :
    ∀ l, Provider.lookupState (l.map g) m = Provider.lookupState l m := by
  intro l
  induction l with
  | nil => rfl
  | cons kv rest ih =>
    simp only [List.map_cons, Provider.lookupState]
    rw [hkey kv]
    by_cases h : kv.1 = m
    · rw [hfix kv h]
      simp [h]
    · simp [h, ih]

/-- The group-clear on success leaves the entry of the successful model
itself untouched. -/
theorem clearQuotaGroup_lookup_self (sameGroup : String → String → Bool)
    (auth : Provider.Auth) (m : String) (now : Int) :
    Provider.lookupState ((Provider.clearQuotaGroupOnSuccess sameGroup auth m now).1).modelStates m =
      Provider.lookupState auth.modelStates m := by
  refine lookupState_map_skip m _ ?_ ?_ auth.modelStates
  · intro kv
    by_cases h : kv.1 ≠ m ∧ sameGroup m kv.1
    · simp [h]
    · simp [h]
  · intro kv h
    have : ¬(kv.1 ≠ m ∧ sameGroup m kv.1) := by simp [h]
    simp [this]

/-- Quota propagation leaves the entry of the model that hit the quota
untouched. -/
theorem propagateQuota_lookup_self (sameGroup : String → String → Bool)
    (auth : Provider.Auth) (m : String) (q : Provider.QuotaState) (next now : Int) :
    Provider.lookupState ((Provider.propagateQuotaToGroup sameGroup auth m q next now).1).modelStates m =
      Provider.lookupState auth.modelStates m := by
  refine lookupState_map_skip m _ ?_ ?_ auth.modelStates
  · intro kv
    by_cases h : kv.1 ≠ m ∧ sameGroup m kv.1
    · simp [h]
    · simp [h]
  · intro kv h
    have : ¬(kv.1 ≠ m ∧ sameGroup m kv.1) := by simp [h]
    simp [this]

/-- Quota propagation only touches the model-state map. -/
theorem propagateQuota_status (sameGroup : String → String → Bool) (a : Provider.Auth)
    (m : String) (q : Provider.QuotaState) (next now : Int) :
    ((Provider.propagateQuotaToGroup sameGroup a m q next now).1).status = a.status := rfl

/-- Quota propagation only touches the model-state map. -/
theorem propagateQuota_lastError (sameGroup : String → String → Bool) (a : Provider.Auth)
    (m : String) (q : Provider.QuotaState) (next now : Int) :
    ((Provider.propagateQuotaToGroup sameGroup a m q next now).1).lastError = a.lastError := rfl

/-- Quota propagation only touches the model-state map. -/
theorem propagateQuota_statusMessage (sameGroup : String → String → Bool) (a : Provider.Auth)
    (m : String) (q : Provider.QuotaState) (next now : Int) :
    ((Provider.propagateQuotaToGroup sameGroup a m q next now).1).statusMessage =
      a.statusMessage := rfl

/-- Characterisation of the success path of `updateAuthState` for a
result that names a model: the model's state is the reset state. -/
theorem updateAuthState_success_lookup (categorize : Nat → String → Provider.ErrCategory)
    (sameGroup : String → String → Bool) (auth : Provider.Auth) (result : Provider.Result)
    (now : Int) (hs : result.success = true) (hm : result.model ≠ "") :
    Provider.lookupState
        (Provider.updateAuthState categorize sameGroup auth result now).modelStates
        result.model =
      some (Provider.resetModelState (Provider.ensureModelState auth result.model) now) := by
  simp only [Provider.updateAuthState, hs, hm, if_true, ne_eq, not_false_eq_true, ite_true]
  split
  · simp only [Provider.updateAggregatedAvailability]
    rw [clearQuotaGroup_lookup_self]
    exact lookupState_setState_self auth.modelStates result.model _
  · simp only [Provider.updateAggregatedAvailability]
    rw [clearQuotaGroup_lookup_self]
    exact lookupState_setState_self auth.modelStates result.model _

/-- C2: after a successful result for (auth, model), the per-model
`unavailable` flag is cleared and `next_retry_after` is ≤ the processing
time (for any non-negative clock). -/
theorem C2_success_resets_model_state (categorize : Nat → String → Provider.ErrCategory)
    (sameGroup : String → String → Bool) (auth : Provider.Auth) (result : Provider.Result)
    (now : Int) (hs : result.success = true) (hm : result.model ≠ "") (hnow : 0 ≤ now) :
    (Provider.ensureModelState (Provider.updateAuthState categorize sameGroup auth result now)
        result.model).unavailable = false ∧
      (Provider.ensureModelState (Provider.updateAuthState categorize sameGroup auth result now)
        result.model).nextRetryAfter ≤ now := by
  have h := updateAuthState_success_lookup categorize sameGroup auth result now hs hm
  unfold Provider.ensureModelState
  rw [h]
  exact ⟨rfl, hnow⟩

/-- C2 witness: a successful result on a fresh credential at time 7. -/
theorem C2_success_resets_model_state_witness :
    (Provider.ensureModelState
        (Provider.updateAuthState (fun _ _ => Provider.ErrCategory.other) (fun _ _ => false)
          { id := "a", provider := "p", status := Provider.AuthStatus.active, lastError := none,
            statusMessage := "", unavailable := false, modelStates := [], updatedAt := 0 }
          { authID := "a", provider := "p", model := "m", success := true, error := none,
            retryAfter := none }
          7)
        "m").unavailable = false ∧
      (Provider.ensureModelState
        (Provider.updateAuthState (fun _ _ => Provider.ErrCategory.other) (fun _ _ => false)
          { id := "a", provider := "p", status := Provider.AuthStatus.active, lastError := none,
            statusMessage := "", unavailable := false, modelStates := [], updatedAt := 0 }
          { authID := "a", provider := "p", model := "m", success := true, error := none,
            retryAfter := none }
          7)
        "m").nextRetryAfter ≤ 7 :=
  C2_success_resets_model_state (fun _ _ => Provider.ErrCategory.other) (fun _ _ => false)
    { id := "a", provider := "p", status := Provider.AuthStatus.active, lastError := none,
      statusMessage := "", unavailable := false, modelStates := [], updatedAt := 0 }
    { authID := "a", provider := "p", model := "m", success := true, error := none,
      retryAfter := none }
    7 rfl (by decide) (by decide)

/-- C1: a failed result with HTTP status 429 carrying a `Retry-After`
duration `d` marks the model's quota exceeded with
`next_recover_at = now + d` and sets `next_retry_after` to the same
instant. -/
theorem C1_429_retry_after_sets_quota (categorize : Nat → String → Provider.ErrCategory)
    (sameGroup : String → String → Bool) (auth : Provider.Auth) (result : Provider.Result)
    (now : Int) (e : Provider.ErrorInfo) (d : Int)
    (hs : result.success = false) (hm : result.model ≠ "")
    (he : result.error = some e) (h429 : e.httpStatus = 429)
    (hra : result.retryAfter = some d) :
    (Provider.ensureModelState (Provider.updateAuthState categorize sameGroup auth result now)
        result.model).quota.exceeded = true ∧
      (Provider.ensureModelState (Provider.updateAuthState categorize sameGroup auth result now)
        result.model).quota.nextRecoverAt = now + d ∧
      (Provider.ensureModelState (Provider.updateAuthState categorize sameGroup auth result now)
        result.model).nextRetryAfter = now + d := by
  unfold Provider.ensureModelState
  simp only [Provider.updateAuthState, hs, hm, he, hra, Provider.statusCodeFromResult, h429,
    ne_eq, not_false_eq_true, ite_true, Bool.false_eq_true, if_false, if_true]
  norm_num
  split_ifs <;>
    simp [Provider.updateAggregatedAvailability, propagateQuota_lookup_self,
      lookupState_setState_self]

/-- C1 witness: a 429 with `Retry-After = 60` processed at time 100 on a
fresh credential puts the model's quota at 160. -/
theorem C1_429_retry_after_sets_quota_witness :
    (Provider.ensureModelState
        (Provider.updateAuthState (fun _ _ => Provider.ErrCategory.other) (fun _ _ => false)
          { id := "a", provider := "p", status := Provider.AuthStatus.active, lastError := none,
            statusMessage := "", unavailable := false, modelStates := [], updatedAt := 0 }
          { authID := "a", provider := "p", model := "m", success := false,
            error := some { httpStatus := 429, message := "quota" }, retryAfter := some 60 }
          100)
        "m").quota.exceeded = true ∧
      (Provider.ensureModelState
        (Provider.updateAuthState (fun _ _ => Provider.ErrCategory.other) (fun _ _ => false)
          { id := "a", provider := "p", status := Provider.AuthStatus.active, lastError := none,
            statusMessage := "", unavailable := false, modelStates := [], updatedAt := 0 }
          { authID := "a", provider := "p", model := "m", success := false,
            error := some { httpStatus := 429, message := "quota" }, retryAfter := some 60 }
          100)
        "m").quota.nextRecoverAt = 100 + 60 ∧
      (Provider.ensureModelState
        (Provider.updateAuthState (fun _ _ => Provider.ErrCategory.other) (fun _ _ => false)
          { id := "a", provider := "p", status := Provider.AuthStatus.active, lastError := none,
            statusMessage := "", unavailable := false, modelStates := [], updatedAt := 0 }
          { authID := "a", provider := "p", model := "m", success := false,
            error := some { httpStatus := 429, message := "quota" }, retryAfter := some 60 }
          100)
        "m").nextRetryAfter = 100 + 60 :=
  C1_429_retry_after_sets_quota (fun _ _ => Provider.ErrCategory.other) (fun _ _ => false)
    { id := "a", provider := "p", status := Provider.AuthStatus.active, lastError := none,
      statusMessage := "", unavailable := false, modelStates := [], updatedAt := 0 }
    { authID := "a", provider := "p", model := "m", success := false,
      error := some { httpStatus := 429, message := "quota" }, retryAfter := some 60 }
    100 { httpStatus := 429, message := "quota" } 60
    rfl (by decide) rfl rfl rfl

/-- C3: a failure classified as a user error does not change the model's
`unavailable` flag nor the credential's `Status`, `LastError` or
`StatusMessage`. -/
theorem C3_user_error_not_recorded (categorize : Nat → String → Provider.ErrCategory)
    (sameGroup : String → String → Bool) (auth : Provider.Auth) (result : Provider.Result)
    (now : Int) (hs : result.success = false) (hm : result.model ≠ "")
    (hcat : categorize (Provider.statusCodeFromResult result.error)
        (Provider.errMsgOf result.error) = Provider.ErrCategory.userError) :
    (Provider.ensureModelState (Provider.updateAuthState categorize sameGroup auth result now)
        result.model).unavailable =
      (Provider.ensureModelState auth result.model).unavailable ∧
      (Provider.updateAuthState categorize sameGroup auth result now).status = auth.status ∧
      (Provider.updateAuthState categorize sameGroup auth result now).lastError = auth.lastError ∧
      (Provider.updateAuthState categorize sameGroup auth result now).statusMessage =
        auth.statusMessage := by
  cases herr : result.error with
  | none =>
    rw [herr] at hcat
    simp only [Provider.statusCodeFromResult, Provider.errMsgOf] at hcat
    unfold Provider.ensureModelState
    simp only [Provider.updateAuthState, hs, hm, herr, Provider.statusCodeFromResult,
      Provider.errMsgOf, hcat, ne_eq, not_false_eq_true, ite_true, Bool.false_eq_true,
      if_false, not_true_eq_false, ite_false]
    norm_num
    simp [Provider.updateAggregatedAvailability, lookupState_setState_self,
      Provider.ensureModelState]
  | some e =>
    rw [herr] at hcat
    simp only [Provider.statusCodeFromResult, Provider.errMsgOf] at hcat
    unfold Provider.ensureModelState
    simp only [Provider.updateAuthState, hs, hm, herr, Provider.statusCodeFromResult,
      Provider.errMsgOf, hcat, ne_eq, not_false_eq_true, ite_true, Bool.false_eq_true,
      if_false, not_true_eq_false, ite_false]
    split_ifs <;>
      simp [Provider.updateAggregatedAvailability, propagateQuota_lookup_self,
        propagateQuota_status, propagateQuota_lastError, propagateQuota_statusMessage,
        lookupState_setState_self, Provider.ensureModelState]

/-- C3 witness: a 400 classified as user error on a fresh active
credential leaves the model flag and the credential fields unchanged. -/
theorem C3_user_error_not_recorded_witness :
    (Provider.ensureModelState
        (Provider.updateAuthState (fun _ _ => Provider.ErrCategory.userError) (fun _ _ => false)
          { id := "a", provider := "p", status := Provider.AuthStatus.active, lastError := none,
            statusMessage := "", unavailable := false, modelStates := [], updatedAt := 0 }
          { authID := "a", provider := "p", model := "m", success := false,
            error := some { httpStatus := 400, message := "bad request" }, retryAfter := none }
          50)
        "m").unavailable =
      (Provider.ensureModelState
        { id := "a", provider := "p", status := Provider.AuthStatus.active, lastError := none,
          statusMessage := "", unavailable := false, modelStates := [], updatedAt := 0 }
        "m").unavailable ∧
      (Provider.updateAuthState (fun _ _ => Provider.ErrCategory.userError) (fun _ _ => false)
        { id := "a", provider := "p", status := Provider.AuthStatus.active, lastError := none,
          statusMessage := "", unavailable := false, modelStates := [], updatedAt := 0 }
        { authID := "a", provider := "p", model := "m", success := false,
          error := some { httpStatus := 400, message := "bad request" }, retryAfter := none }
        50).status = Provider.AuthStatus.active ∧
      (Provider.updateAuthState (fun _ _ => Provider.ErrCategory.userError) (fun _ _ => false)
        { id := "a", provider := "p", status := Provider.AuthStatus.active, lastError := none,
          statusMessage := "", unavailable := false, modelStates := [], updatedAt := 0 }
        { authID := "a", provider := "p", model := "m", success := false,
          error := some { httpStatus := 400, message := "bad request" }, retryAfter := none }
        50).lastError = none ∧
      (Provider.updateAuthState (fun _ _ => Provider.ErrCategory.userError) (fun _ _ => false)
        { id := "a", provider := "p", status := Provider.AuthStatus.active, lastError := none,
          statusMessage := "", unavailable := false, modelStates := [], updatedAt := 0 }
        { authID := "a", provider := "p", model := "m", success := false,
          error := some { httpStatus := 400, message := "bad request" }, retryAfter := none }
        50).statusMessage = "" :=
  C3_user_error_not_recorded (fun _ _ => Provider.ErrCategory.userError) (fun _ _ => false)
    { id := "a", provider := "p", status := Provider.AuthStatus.active, lastError := none,
      statusMessage := "", unavailable := false, modelStates := [], updatedAt := 0 }
    { authID := "a", provider := "p", model := "m", success := false,
      error := some { httpStatus := 400, message := "bad request" }, retryAfter := none }
    50 rfl (by decide) rfl

/-- C9: a credential's `UpdatedAt` is monotone non-decreasing across
successful result recordings processed at or after the stored time. -/
theorem C9_updatedAt_monotone (categorize : Nat → String → Provider.ErrCategory)
    (sameGroup : String → String → Bool) (auth : Provider.Auth) (result : Provider.Result)
    (now : Int) (hs : result.success = true) (hmono : auth.updatedAt ≤ now) :
    auth.updatedAt ≤ (Provider.updateAuthState categorize sameGroup auth result now).updatedAt := by
  by_cases hm : result.model = ""
  · simpa [Provider.updateAuthState, hs, hm, Provider.clearAuthStateOnSuccess] using hmono
  · simpa [Provider.updateAuthState, hs, hm, Provider.updateAggregatedAvailability] using hmono

/-- C9 witness: a successful result processed at time 9 on a credential
last updated at time 3. -/
theorem C9_updatedAt_monotone_witness :
    ({ id := "a", provider := "p", status := Provider.AuthStatus.active, lastError := none,
       statusMessage := "", unavailable := false, modelStates := [],
       updatedAt := 3 } : Provider.Auth).updatedAt ≤
      (Provider.updateAuthState (fun _ _ => Provider.ErrCategory.other) (fun _ _ => false)
        { id := "a", provider := "p", status := Provider.AuthStatus.active, lastError := none,
          statusMessage := "", unavailable := false, modelStates := [], updatedAt := 3 }
        { authID := "a", provider := "p", model := "m", success := true, error := none,
          retryAfter := none }
        9).updatedAt :=
  C9_updatedAt_monotone (fun _ _ => Provider.ErrCategory.other) (fun _ _ => false)
    { id := "a", provider := "p", status := Provider.AuthStatus.active, lastError := none,
      statusMessage := "", unavailable := false, modelStates := [], updatedAt := 3 }
    { authID := "a", provider := "p", model := "m", success := true, error := none,
      retryAfter := none }
    9 rfl (by decide)

/-- The preprocess pipeline acts independently on the four embedded
fields; all equalities are definitional. -/
theorem preprocess_eq (g : String → Option Preprocess.ModelInfo) (D : Int)
    (x : Preprocess.PRequest) :
    Preprocess.preprocess g D x =
      { model := (Preprocess.thinkPromote g x.model x.thinking).1,
        maxTokens := Preprocess.defMT D x.model (Preprocess.mtClamp x.maxTokens (g x.model)),
        candidateCount := Preprocess.ccClamp x.candidateCount,
        thinking := Preprocess.thinkNorm (Preprocess.thinkPromote g x.model x.thinking).2.1
          (g x.model) } := rfl

/-- When the promotion does not fire, the model name is unchanged. -/
theorem thinkPromote_nofire_model (g : String → Option Preprocess.ModelInfo) (m : String)
    (th : Option Preprocess.PThinking)
    (hfire : (Preprocess.thinkPromote g m th).2.2 = false) :
    (Preprocess.thinkPromote g m th).1 = m := by
  rcases th with _ | tc
  · rfl
  · by_cases hcl : Preprocess.isClaudeModel m = true
    · by_cases hend : strEndsWith m ("-thinking") = true
      · simp [Preprocess.thinkPromote, hcl, hend]
      · by_cases hg : (g (m ++ ("-thinking"))).isSome = true
        · simp [Preprocess.thinkPromote, hcl, hend, hg] at hfire
        · simp [Preprocess.thinkPromote, hcl, hend, hg]
    · simp [Preprocess.thinkPromote, hcl]

/-- The four possible shapes of a normalised budget on a sane range:
`-1` (dynamic), `0` (allowed, or a zero minimum), a value inside
`[min, max]`, or an untouched negative value other than `-1`. -/
theorem budgetNorm_cases (t : Preprocess.ThinkingSupport) (h1 : 0 ≤ t.min)
    (h2 : t.min ≤ t.max) (b : Int) :
    (Preprocess.budgetNorm b t = -1 ∧ t.dynamicAllowed = true) ∨
      (Preprocess.budgetNorm b t = 0 ∧ (t.zeroAllowed = true ∨ t.min = 0)) ∨
      (0 < Preprocess.budgetNorm b t ∧ t.min ≤ Preprocess.budgetNorm b t ∧
        Preprocess.budgetNorm b t ≤ t.max) ∨
      (Preprocess.budgetNorm b t < 0 ∧ Preprocess.budgetNorm b t ≠ -1) := by
  have hdivEq : Int.tdiv (t.min + t.max) 2 = (t.min + t.max) / 2 :=
    Int.tdiv_eq_ediv (by omega) (by omega)
  unfold Preprocess.budgetNorm
  rcases Bool.eq_false_or_eq_true t.dynamicAllowed with hdyn | hdyn <;>
    rcases Bool.eq_false_or_eq_true t.zeroAllowed with hz | hz <;>
    simp only [hdivEq, hdyn, hz, Bool.false_eq_true, not_false_eq_true, not_true_eq_false,
      and_true, and_false, if_false, if_true, true_or, or_true, false_or, or_false] <;>
    split_ifs <;> omega

/-- The budget arithmetic of `normalizeThinkingBudget` is idempotent on
sane registry ranges. -/
theorem budgetNorm_idem (t : Preprocess.ThinkingSupport) (h1 : 0 ≤ t.min)
    (h2 : t.min ≤ t.max) (b : Int) :
    Preprocess.budgetNorm (Preprocess.budgetNorm b t) t = Preprocess.budgetNorm b t := by
  have hdivEq : Int.tdiv (t.min + t.max) 2 = (t.min + t.max) / 2 :=
    Int.tdiv_eq_ediv (by omega) (by omega)
  rcases budgetNorm_cases t h1 h2 b with ⟨hv, hdyn⟩ | ⟨hv, hz⟩ | ⟨hv1, hv2, hv3⟩ | ⟨hv1, hv2⟩
  · rw [hv]
    simp only [Preprocess.budgetNorm, hdyn, not_true_eq_false, and_false, if_false]
    norm_num
  · rw [hv]
    rcases hz with hz | hz
    · rcases Bool.eq_false_or_eq_true t.dynamicAllowed with hdyn | hdyn <;>
        simp only [Preprocess.budgetNorm, hdivEq, hdyn, hz, Bool.false_eq_true,
          not_false_eq_true, not_true_eq_false, and_true, and_false, if_false, if_true] <;>
        split_ifs <;> first | omega | simp_all
    · rcases Bool.eq_false_or_eq_true t.dynamicAllowed with hdyn | hdyn <;>
        rcases Bool.eq_false_or_eq_true t.zeroAllowed with hz2 | hz2 <;>
        simp only [Preprocess.budgetNorm, hdivEq, hdyn, hz2, hz, Bool.false_eq_true,
          not_false_eq_true, not_true_eq_false, and_true, and_false, if_false, if_true] <;>
        split_ifs <;> first | omega | simp_all
  · generalize hy : Preprocess.budgetNorm b t = y at hv1 hv2 hv3 ⊢
    rcases Bool.eq_false_or_eq_true t.dynamicAllowed with hdyn | hdyn <;>
      rcases Bool.eq_false_or_eq_true t.zeroAllowed with hz2 | hz2 <;>
      simp only [Preprocess.budgetNorm, hdivEq, hdyn, hz2, Bool.false_eq_true,
        not_false_eq_true, not_true_eq_false, and_true, and_false, if_false, if_true] <;>
      split_ifs <;> omega
  · generalize hy : Preprocess.budgetNorm b t = y at hv1 hv2 ⊢
    rcases Bool.eq_false_or_eq_true t.dynamicAllowed with hdyn | hdyn <;>
      rcases Bool.eq_false_or_eq_true t.zeroAllowed with hz2 | hz2 <;>
      simp only [Preprocess.budgetNorm, hdivEq, hdyn, hz2, Bool.false_eq_true,
        not_false_eq_true, not_true_eq_false, and_true, and_false, if_false, if_true] <;>
      split_ifs <;> omega

/-- The per-config normalisation is idempotent on sane registry ranges. -/
theorem normTC_idem (tc : Preprocess.PThinking) (i0 : Option Preprocess.ModelInfo)
    (hrng : ∀ inf, i0 = some inf → ∀ t, inf.thinking = some t → 0 ≤ t.min ∧ t.min ≤ t.max) :
    Preprocess.normTC (Preprocess.normTC tc i0) i0 = Preprocess.normTC tc i0 := by
  rcases htc : tc.thinkingBudget with _ | b
  · simp [Preprocess.normTC, htc]
  · rcases i0 with _ | inf
    · simp [Preprocess.normTC, htc]
    · rcases ht : inf.thinking with _ | t
      · simp [Preprocess.normTC, htc, ht]
      · have hb := budgetNorm_idem t ((hrng inf rfl t ht).1) ((hrng inf rfl t ht).2) b
        simp [Preprocess.normTC, htc, ht, hb]

/-- The thinking transform of the normalisation pass is idempotent on
sane registry ranges. -/
theorem thinkNorm_idem (th : Option Preprocess.PThinking) (i0 : Option Preprocess.ModelInfo)
    (hrng : ∀ inf, i0 = some inf → ∀ t, inf.thinking = some t → 0 ≤ t.min ∧ t.min ≤ t.max) :
    Preprocess.thinkNorm (Preprocess.thinkNorm th i0) i0 = Preprocess.thinkNorm th i0 := by
  rcases th with _ | tc
  · rfl
  · simp [Preprocess.thinkNorm, normTC_idem tc i0 hrng]

/-- A second promotion pass on a request the first pass did not rewrite
is the identity (it neither renames nor alters the thinking config). -/
theorem thinkPromote_second (g : String → Option Preprocess.ModelInfo) (m : String)
    (th : Option Preprocess.PThinking) (i0 : Option Preprocess.ModelInfo)
    (hfire : (Preprocess.thinkPromote g m th).2.2 = false) :
    Preprocess.thinkPromote g m
        (Preprocess.thinkNorm (Preprocess.thinkPromote g m th).2.1 i0) =
      (m, Preprocess.thinkNorm (Preprocess.thinkPromote g m th).2.1 i0, false) := by
  rcases th with _ | tc
  · simp [Preprocess.thinkPromote, Preprocess.thinkNorm]
  · by_cases hcl : Preprocess.isClaudeModel m = true
    · by_cases hend : strEndsWith m ("-thinking") = true
      · rcases i0 with _ | inf
        · simp [Preprocess.thinkPromote, Preprocess.thinkNorm, Preprocess.normTC, hcl, hend]
        · rcases ht : inf.thinking with _ | t
          · simp [Preprocess.thinkPromote, Preprocess.thinkNorm, Preprocess.normTC, hcl, hend, ht]
          · simp [Preprocess.thinkPromote, Preprocess.thinkNorm, Preprocess.normTC, hcl, hend, ht]
      · by_cases hg : (g (m ++ ("-thinking"))).isSome = true
        · simp [Preprocess.thinkPromote, hcl, hend, hg] at hfire
        · simp [Preprocess.thinkPromote, Preprocess.thinkNorm, hcl, hend, hg]
    · simp [Preprocess.thinkPromote, Preprocess.thinkNorm, hcl]

/-- The `MaxTokens` clamp is idempotent. -/
theorem mtClamp_idem (mt : Option Int) (i : Option Preprocess.ModelInfo) :
    Preprocess.mtClamp (Preprocess.mtClamp mt i) i = Preprocess.mtClamp mt i := by
  rcases mt with _ | v <;> rcases i with _ | inf
  · rfl
  · rfl
  · rfl
  · simp only [Preprocess.mtClamp]
    split_ifs <;> simp only [Preprocess.mtClamp] <;> split_ifs <;> rfl

/-- One round of default-then-clamp on `MaxTokens` is stable under a
second round, provided the Claude default does not exceed the output
limit. -/
theorem mtPass_idem (D : Int) (m : String) (i : Option Preprocess.ModelInfo) (mt : Option Int)
    (hD : ∀ inf, i = some inf → 0 < Preprocess.limitOf inf → D ≤ Preprocess.limitOf inf) :
    Preprocess.defMT D m
        (Preprocess.mtClamp (Preprocess.defMT D m (Preprocess.mtClamp mt i)) i) =
      Preprocess.defMT D m (Preprocess.mtClamp mt i) := by
  by_cases hcl : Preprocess.isClaudeModel m = true
  · have hDstable : Preprocess.mtClamp (some D) i = some D := by
      rcases i with _ | inf
      · rfl
      · simp only [Preprocess.mtClamp]
        split_ifs with h
        · exact absurd (hD inf rfl h.1) (by omega)
        · rfl
    rcases hc1 : Preprocess.mtClamp mt i with _ | v
    · simp only [Preprocess.defMT, hcl, if_true, ite_true]
      rw [hDstable]
      by_cases hD0 : D = 0 <;> simp [Preprocess.defMT, hcl, hD0]
    · by_cases hv : v = 0
      · subst hv
        simp only [Preprocess.defMT, hcl, if_true, ite_true, if_pos rfl]
        rw [hDstable]
        by_cases hD0 : D = 0 <;> simp [Preprocess.defMT, hcl, hD0]
      · have hidem : Preprocess.mtClamp (some v) i = some v := by
          have h0 := mtClamp_idem mt i
          rw [hc1] at h0
          exact h0
        simp [Preprocess.defMT, hcl, hv, hidem]
  · simp [Preprocess.defMT, hcl, mtClamp_idem]

/-- The candidate-count clamp is idempotent. -/
theorem ccClamp_idem (cc : Option Int) :
    Preprocess.ccClamp (Preprocess.ccClamp cc) = Preprocess.ccClamp cc := by
  rcases cc with _ | c
  · rfl
  · simp only [Preprocess.ccClamp]
    split_ifs <;> simp_all

/-- C5 counterexample: on a Claude request whose `-thinking` variant is
registered, one preprocess run renames the model but leaves
`include_thoughts` untouched; the second run then forces
`include_thoughts = true`, so `preprocess (preprocess x) ≠ preprocess x`. -/
theorem C5_counterexample :
    Preprocess.preprocess
        (fun m => if m = ("claude-x") ∨ m = ("claude-x-thinking") then
          some { outputTokenLimit := 100000, maxCompletionTokens := 0,
                 thinking := some { min := 100, max := 1000,
                                    zeroAllowed := false, dynamicAllowed := false } }
          else none)
        32000
        (Preprocess.preprocess
          (fun m => if m = ("claude-x") ∨ m = ("claude-x-thinking") then
            some { outputTokenLimit := 100000, maxCompletionTokens := 0,
                   thinking := some { min := 100, max := 1000,
                                      zeroAllowed := false, dynamicAllowed := false } }
            else none)
          32000
          { model := "claude-x", maxTokens := some 50, candidateCount := none,
            thinking := some { includeThoughts := false, thinkingBudget := some 500 } }) ≠
      Preprocess.preprocess
        (fun m => if m = ("claude-x") ∨ m = ("claude-x-thinking") then
          some { outputTokenLimit := 100000, maxCompletionTokens := 0,
                 thinking := some { min := 100, max := 1000,
                                    zeroAllowed := false, dynamicAllowed := false } }
          else none)
        32000
        { model := "claude-x", maxTokens := some 50, candidateCount := none,
          thinking := some { includeThoughts := false, thinkingBudget := some 500 } } := by
  decide

/-- C5 (amended): preprocess is idempotent on every request that the
thinking-model promotion does not rewrite, for registries whose thinking
ranges satisfy `0 ≤ min ≤ max` and whose Claude default max-tokens does
not exceed the model's positive output limit.  (A promoted request is
not a fixed point: the second run forces `include_thoughts` and the
default budget.) -/
theorem C5_preprocess_idem (g : String → Option Preprocess.ModelInfo) (D : Int)
    (x : Preprocess.PRequest)
    (hpromo : (Preprocess.thinkPromote g x.model x.thinking).2.2 = false)
    (hD : ∀ i, g x.model = some i → 0 < Preprocess.limitOf i → D ≤ Preprocess.limitOf i)
    (hrng : ∀ i, g x.model = some i → ∀ t, i.thinking = some t → 0 ≤ t.min ∧ t.min ≤ t.max) :
    Preprocess.preprocess g D (Preprocess.preprocess g D x) = Preprocess.preprocess g D x := by
  obtain ⟨xm, xmt, xcc, xth⟩ := x
  simp only at hpromo hD hrng
  have hm1 : (Preprocess.thinkPromote g xm xth).1 = xm :=
    thinkPromote_nofire_model g xm xth hpromo
  simp only [preprocess_eq, hm1, Preprocess.PRequest.mk.injEq]
  refine ⟨?_, ?_, ?_, ?_⟩
  · rw [thinkPromote_second g xm xth (g xm) hpromo]
  · exact mtPass_idem D xm (g xm) xmt hD
  · exact ccClamp_idem xcc
  · rw [thinkPromote_second g xm xth (g xm) hpromo]
    exact thinkNorm_idem _ (g xm) hrng

/-- C5 witness: idempotence at a Claude `-thinking` request (budget 200,
candidate count 0, unset max tokens) against an empty registry. -/
theorem C5_preprocess_idem_witness :
    Preprocess.preprocess (fun _ => none) 32000
        (Preprocess.preprocess (fun _ => none) 32000
          { model := "claude-z-thinking", maxTokens := none, candidateCount := some 0,
            thinking := some { includeThoughts := false, thinkingBudget := some 200 } }) =
      Preprocess.preprocess (fun _ => none) 32000
        { model := "claude-z-thinking", maxTokens := none, candidateCount := some 0,
          thinking := some { includeThoughts := false, thinkingBudget := some 200 } } :=
  C5_preprocess_idem (fun _ => none) 32000
    { model := "claude-z-thinking", maxTokens := none, candidateCount := some 0,
      thinking := some { includeThoughts := false, thinkingBudget := some 200 } }
    (by decide) (fun i hi => nomatch hi) (fun i hi => nomatch hi)

/-- C10: a response builder over an empty message list is total and
empty everywhere: no last message, no content, no tool calls, empty text,
and empty Claude and Gemini part lists. -/
theorem C10_empty_builder_total (usage : Option IR.Usage) (model : String)
    (jsonValid : String → Bool) :
    (IR.NewResponseBuilder [] usage model).GetLastMessage = none ∧
      (IR.NewResponseBuilder [] usage model).HasContent = false ∧
      (IR.NewResponseBuilder [] usage model).HasToolCalls = false ∧
      (IR.NewResponseBuilder [] usage model).GetTextContent = "" ∧
      (IR.NewResponseBuilder [] usage model).BuildClaudeContentParts jsonValid = [] ∧
      (IR.NewResponseBuilder [] usage model).BuildGeminiContentParts = [] := by
  refine ⟨rfl, rfl, rfl, rfl, rfl, rfl⟩

/-- The empty pool is well formed. -/
theorem WF_NewBufferPool : StreamUtil.WF StreamUtil.NewBufferPool := by
  refine ⟨?_, ?_, ?_⟩ <;> intro b hb <;> cases hb

/-- `Get` on a well-formed pool returns a zero-length buffer of
sufficient, recyclable capacity and leaves the pool well formed. -/
theorem BufferPool_Get_spec (p : StreamUtil.BufferPool) (size : Nat)
    (h : StreamUtil.WF p) :
    (p.Get size).1.length = 0 ∧ size ≤ (p.Get size).1.capacity ∧
      StreamUtil.RecycledCap (p.Get size).1.capacity ∧ StreamUtil.WF (p.Get size).2 := by
  unfold StreamUtil.BufferPool.Get
  split_ifs with h1 h2 h3
  · rcases hps : p.small with _ | ⟨b, rest⟩ <;> simp only [hps]
    · exact ⟨trivial, h1, Or.inl rfl, h⟩
    · have hb := h.1 b (by rw [hps]; exact List.mem_cons_self b rest)
      refine ⟨hb.1, by rw [hb.2]; exact h1, Or.inl hb.2, ?_, h.2.1, h.2.2⟩
      intro b' hb'
      exact h.1 b' (by rw [hps]; exact List.mem_cons_of_mem _ hb')
  · rcases hps : p.medium with _ | ⟨b, rest⟩ <;> simp only [hps]
    · exact ⟨trivial, h2, Or.inr (Or.inl rfl), h⟩
    · have hb := h.2.1 b (by rw [hps]; exact List.mem_cons_self b rest)
      refine ⟨hb.1, by rw [hb.2]; exact h2, Or.inr (Or.inl hb.2), h.1, ?_, h.2.2⟩
      intro b' hb'
      exact h.2.1 b' (by rw [hps]; exact List.mem_cons_of_mem _ hb')
  · rcases hps : p.large with _ | ⟨b, rest⟩ <;> simp only [hps]
    · exact ⟨trivial, h3, Or.inr (Or.inr (Or.inl rfl)), h⟩
    · have hb := h.2.2 b (by rw [hps]; exact List.mem_cons_self b rest)
      refine ⟨hb.1, by rw [hb.2]; exact h3, Or.inr (Or.inr (Or.inl hb.2)), h.1, h.2.1, ?_⟩
      intro b' hb'
      exact h.2.2 b' (by rw [hps]; exact List.mem_cons_of_mem _ hb')
  · refine ⟨rfl, Nat.le_refl size, Or.inr (Or.inr (Or.inr ?_)), h⟩
    show StreamUtil.largeBufferSize < size
    omega

/-- `Put` always satisfies the placement contract. -/
theorem BufferPool_Put_placement (p : StreamUtil.BufferPool) (buf : StreamUtil.GoBuffer) :
    StreamUtil.PutPlacement p buf := by
  have hsl : StreamUtil.smallBufferSize < StreamUtil.largeBufferSize := by decide
  have hml : StreamUtil.mediumBufferSize < StreamUtil.largeBufferSize := by decide
  unfold StreamUtil.PutPlacement StreamUtil.BufferPool.Put
  dsimp only
  split_ifs with c1 c2 c3
  · exact ⟨Or.inr ⟨c1, rfl⟩, Or.inl rfl, Or.inl rfl, fun hlt => absurd c1 (by omega)⟩
  · exact ⟨Or.inl rfl, Or.inr ⟨c2, rfl⟩, Or.inl rfl, fun hlt => absurd c2 (by omega)⟩
  · exact ⟨Or.inl rfl, Or.inl rfl, Or.inr ⟨c3, rfl⟩, fun hlt => absurd c3 (by omega)⟩
  · exact ⟨Or.inl rfl, Or.inl rfl, Or.inl rfl, fun _ => rfl⟩

/-- `Put` of a recyclable buffer keeps the pool well formed. -/
theorem BufferPool_Put_WF (p : StreamUtil.BufferPool) (buf : StreamUtil.GoBuffer)
    (h : StreamUtil.WF p) (hc : StreamUtil.RecycledCap buf.capacity) :
    StreamUtil.WF (p.Put buf) := by
  have hc' := hc
  unfold StreamUtil.RecycledCap at hc'
  unfold StreamUtil.BufferPool.Put
  dsimp only
  split_ifs with c1 c2 c3
  · refine ⟨?_, h.2.1, h.2.2⟩
    intro b hb
    rcases List.mem_cons.mp hb with rfl | hb'
    · refine ⟨rfl, ?_⟩
      revert c1 hc'
      simp only [StreamUtil.smallBufferSize, StreamUtil.mediumBufferSize,
        StreamUtil.largeBufferSize]
      omega
    · exact h.1 b hb'
  · refine ⟨h.1, ?_, h.2.2⟩
    intro b hb
    rcases List.mem_cons.mp hb with rfl | hb'
    · refine ⟨rfl, ?_⟩
      revert c1 c2 hc'
      simp only [StreamUtil.smallBufferSize, StreamUtil.mediumBufferSize,
        StreamUtil.largeBufferSize]
      omega
    · exact h.2.1 b hb'
  · refine ⟨h.1, h.2.1, ?_⟩
    intro b hb
    rcases List.mem_cons.mp hb with rfl | hb'
    · refine ⟨rfl, ?_⟩
      revert c1 c2 c3 hc'
      simp only [StreamUtil.smallBufferSize, StreamUtil.mediumBufferSize,
        StreamUtil.largeBufferSize]
      omega
    · exact h.2.2 b hb'
  · exact h

/-- Disciplined operation sequences preserve well-formedness. -/
theorem runOps_WF (ops : List StreamUtil.PoolOp) :
    ∀ p : StreamUtil.BufferPool, StreamUtil.WF p →
      (∀ op ∈ ops, StreamUtil.DisciplinedOp op) →
      StreamUtil.WF (StreamUtil.runOps p ops) := by
  induction ops with
  | nil => intro p hp _; exact hp
  | cons op rest ih =>
    intro p hp hops
    cases op with
    | get size =>
      exact ih _ (BufferPool_Get_spec p size hp).2.2.2
        (fun o ho => hops o (List.mem_cons_of_mem _ ho))
    | put buf =>
      exact ih _ (BufferPool_Put_WF p buf hp (hops _ (List.mem_cons_self _ _)))
        (fun o ho => hops o (List.mem_cons_of_mem _ ho))

/-- C7 counterexample: the claim's Get guarantee fails when an arbitrary
buffer is Put: a capacity-100 buffer stored in the small class is handed
back by `Get 2000` with capacity 100 < 2000. -/
theorem C7_counterexample :
    ((StreamUtil.NewBufferPool.Put { length := 3, capacity := 100 }).Get 2000).1.capacity =
        100 ∧
      ¬ 2000 ≤
        ((StreamUtil.NewBufferPool.Put { length := 3, capacity := 100 }).Get 2000).1.capacity := by
  constructor
  · rfl
  · decide

/-- C7 (amended): after any sequence of operations in which every Put
returns an unmodified buffer that a Get could have produced, `Get(size)`
yields a zero-length buffer of capacity ≥ size, and `Put(buf)` (for any
buffer) truncates it and stores it only in a class whose limit covers
its capacity — never a smaller class, and not at all above the large
class. -/
theorem C7_bufferpool_contract (ops : List StreamUtil.PoolOp)
    (hops : ∀ op ∈ ops, StreamUtil.DisciplinedOp op) (size : Nat)
    (buf : StreamUtil.GoBuffer) :
    ((StreamUtil.runOps StreamUtil.NewBufferPool ops).Get size).1.length = 0 ∧
      size ≤ ((StreamUtil.runOps StreamUtil.NewBufferPool ops).Get size).1.capacity ∧
      StreamUtil.PutPlacement (StreamUtil.runOps StreamUtil.NewBufferPool ops) buf := by
  have hwf := runOps_WF ops StreamUtil.NewBufferPool WF_NewBufferPool hops
  have hget := BufferPool_Get_spec (StreamUtil.runOps StreamUtil.NewBufferPool ops) size hwf
  exact ⟨hget.1, hget.2.1, BufferPool_Put_placement _ buf⟩

/-- C7 witness: the contract after a get of 100 bytes and a disciplined
put of a 4 KiB buffer, for a get of 1000 bytes and a put of a 70000-byte
buffer. -/
theorem C7_bufferpool_contract_witness :
    ((StreamUtil.runOps StreamUtil.NewBufferPool
          [StreamUtil.PoolOp.get 100,
            StreamUtil.PoolOp.put { length := 0, capacity := 4096 }]).Get 1000).1.length = 0 ∧
      1000 ≤ ((StreamUtil.runOps StreamUtil.NewBufferPool
          [StreamUtil.PoolOp.get 100,
            StreamUtil.PoolOp.put { length := 0, capacity := 4096 }]).Get 1000).1.capacity ∧
      StreamUtil.PutPlacement
        (StreamUtil.runOps StreamUtil.NewBufferPool
          [StreamUtil.PoolOp.get 100,
            StreamUtil.PoolOp.put { length := 0, capacity := 4096 }])
        { length := 5, capacity := 70000 } :=
  C7_bufferpool_contract
    [StreamUtil.PoolOp.get 100, StreamUtil.PoolOp.put { length := 0, capacity := 4096 }]
    (by
      intro op hop
      rcases List.mem_cons.mp hop with rfl | hop'
      · trivial
      · rcases List.mem_cons.mp hop' with rfl | hop''
        · exact Or.inl rfl
        · cases hop'')
    1000 { length := 5, capacity := 70000 }

/-- A left fold with `min` is below its initial accumulator. -/
theorem foldl_min_le_init (l : List Int) (a : Int) : l.foldl min a ≤ a := by
  induction l generalizing a with
  | nil => exact le_refl a
  | cons x xs ih => exact le_trans (ih (min a x)) (min_le_left a x)

/-- A left fold with `min` is below every list element. -/
theorem foldl_min_le_mem (l : List Int) (a : Int) : ∀ x ∈ l, l.foldl min a ≤ x := by
  induction l generalizing a with
  | nil => intro x hx; cases hx
  | cons y ys ih =>
    intro x hx
    rcases List.mem_cons.mp hx with rfl | hx'
    · exact le_trans (foldl_min_le_init ys (min a x)) (min_le_right a x)
    · exact ih (min a y) x hx'

/-- A left fold with `min` is attained at the accumulator or in the
list. -/
theorem foldl_min_attained (l : List Int) (a : Int) :
    l.foldl min a = a ∨ l.foldl min a ∈ l := by
  induction l generalizing a with
  | nil => exact Or.inl rfl
  | cons y ys ih =>
    rcases ih (min a y) with h | h
    · rcases min_choice a y with hm | hm
      · left
        rw [List.foldl_cons, h, hm]
      · right
        rw [List.foldl_cons, h, hm]
        exact List.mem_cons_self y ys
    · right
      exact List.mem_cons_of_mem y h

/-- The minimum priority is a lower bound on the available members. -/
theorem minPriority_le (m0 : Registry.FamilyMember) (rest : List Registry.FamilyMember) :
    ∀ m ∈ m0 :: rest, Registry.minPriority m0 rest ≤ m.priority := by
  intro m hm
  rcases List.mem_cons.mp hm with rfl | hm'
  · exact foldl_min_le_init _ _
  · exact foldl_min_le_mem _ _ m.priority
      (List.mem_map_of_mem Registry.FamilyMember.priority hm')

/-- The minimum priority is attained by some available member. -/
theorem minPriority_attained (m0 : Registry.FamilyMember)
    (rest : List Registry.FamilyMember) :
    ∃ m ∈ m0 :: rest, m.priority = Registry.minPriority m0 rest := by
  rcases foldl_min_attained (rest.map Registry.FamilyMember.priority) m0.priority with h | h
  · exact ⟨m0, List.mem_cons_self _ _, h.symm⟩
  · rcases List.mem_map.mp h with ⟨m, hm, hmp⟩
    exact ⟨m, List.mem_cons_of_mem _ hm, hmp⟩

/-- An index reduced modulo the length of a non-empty list selects a
list element. -/
theorem getD_mod_mem {α : Type} (l : List α) (d : α) (i : Nat) (h : l ≠ []) :
    l.getD (i % l.length) d ∈ l := by
  have hlen : 0 < l.length := List.length_pos.mpr h
  have hlt : i % l.length < l.length := Nat.mod_lt _ hlen
  rw [List.getD_eq_getElem?_getD, List.getElem?_eq_getElem hlt]
  exact List.getElem_mem hlt

/-- The member `ResolveModelFamily` selects from a non-empty available
list: it is available and sits at the minimum priority. -/
theorem resolve_core (m0 : Registry.FamilyMember) (rest : List Registry.FamilyMember)
    (pick : Nat) :
    ∃ mem ∈ m0 :: rest,
      mem.priority = Registry.minPriority m0 rest ∧
      ((m0 :: rest).filter
          (fun m => m.priority = Registry.minPriority m0 rest)).getD
        (pick % ((m0 :: rest).filter
          (fun m => m.priority = Registry.minPriority m0 rest)).length) m0 = mem := by
  obtain ⟨ma, hma_mem, hma_pri⟩ := minPriority_attained m0 rest
  have hgr_ne : (m0 :: rest).filter
      (fun m => m.priority = Registry.minPriority m0 rest) ≠ [] := by
    intro hemp
    have hmem : ma ∈ (m0 :: rest).filter
        (fun m => m.priority = Registry.minPriority m0 rest) :=
      List.mem_filter.mpr ⟨hma_mem, by simp [hma_pri]⟩
    rw [hemp] at hmem
    cases hmem
  have hsel := getD_mod_mem
    ((m0 :: rest).filter (fun m => m.priority = Registry.minPriority m0 rest)) m0 pick hgr_ne
  have hsplit := List.mem_filter.mp hsel
  exact ⟨_, hsplit.1, by simpa using hsplit.2, rfl⟩

/-- C8: for a canonical id in the family table, `ResolveModelFamily`
reports not-found when no member's provider is available, and otherwise
returns a family member whose provider is available and whose priority is
the lowest among available members. -/
theorem C8_resolve_family (canonical : String) (family : List Registry.FamilyMember)
    (avail : List String) (pick : Nat)
    (hfam : Registry.lookupFamily Registry.ModelFamilies canonical = some family) :
    ((∀ m ∈ family, avail.contains m.provider = false) →
        (Registry.ResolveModelFamily Registry.ModelFamilies canonical avail pick).2.2 =
          false) ∧
      ((∃ m ∈ family, avail.contains m.provider = true) →
        (Registry.ResolveModelFamily Registry.ModelFamilies canonical avail pick).2.2 =
            true ∧
          ∃ mem ∈ family,
            avail.contains mem.provider = true ∧
            (Registry.ResolveModelFamily Registry.ModelFamilies canonical avail pick).1 =
              mem.provider ∧
            (Registry.ResolveModelFamily Registry.ModelFamilies canonical avail pick).2.1 =
              mem.modelID ∧
            ∀ m' ∈ family, avail.contains m'.provider = true →
              mem.priority ≤ m'.priority) := by
  have hmem_iff : ∀ m : Registry.FamilyMember,
      m ∈ Registry.availableMembers family avail ↔
        (m ∈ family ∧ avail.contains m.provider = true) := by
    intro m
    exact List.mem_filter
  unfold Registry.ResolveModelFamily
  rw [hfam]
  dsimp only
  rcases hav : Registry.availableMembers family avail with _ | ⟨m0, rest⟩
  · constructor
    · intro _
      rfl
    · rintro ⟨m, hm, hmc⟩
      exfalso
      have hmemav : m ∈ Registry.availableMembers family avail :=
        (hmem_iff m).mpr ⟨hm, hmc⟩
      rw [hav] at hmemav
      cases hmemav
  · dsimp only
    obtain ⟨mem, hmem, hpri, hsel⟩ := resolve_core m0 rest pick
    have hmemfam := (hmem_iff mem).mp (hav ▸ hmem)
    constructor
    · intro hall
      exfalso
      have hm0 : m0 ∈ Registry.availableMembers family avail := by
        rw [hav]
        exact List.mem_cons_self _ _
      have := (hmem_iff m0).mp hm0
      rw [hall m0 this.1] at this
      cases this.2
    · intro _
      refine ⟨rfl, mem, hmemfam.1, hmemfam.2, ?_, ?_, ?_⟩
      · show (((m0 :: rest).filter
            (fun m => m.priority = Registry.minPriority m0 rest)).getD
          (pick % ((m0 :: rest).filter
            (fun m => m.priority = Registry.minPriority m0 rest)).length) m0).provider =
            mem.provider
        rw [hsel]
      · show (((m0 :: rest).filter
            (fun m => m.priority = Registry.minPriority m0 rest)).getD
          (pick % ((m0 :: rest).filter
            (fun m => m.priority = Registry.minPriority m0 rest)).length) m0).modelID =
            mem.modelID
        rw [hsel]
      · intro m' hm' hc'
        rw [hpri]
        exact minPriority_le m0 rest m' (hav ▸ (hmem_iff m').mpr ⟨hm', hc'⟩)

/-- C8 witness: resolving `claude-sonnet-4-5` with only `kiro` available
reports found. -/
theorem C8_resolve_family_witness :
    (Registry.ResolveModelFamily Registry.ModelFamilies ("claude-sonnet-4-5")
        ["kiro"] 0).2.2 = true :=
  ((C8_resolve_family ("claude-sonnet-4-5")
      [ { provider := "kiro", modelID := "claude-sonnet-4-5", priority := 1 },
        { provider := "antigravity", modelID := "gemini-claude-sonnet-4-5", priority := 1 },
        { provider := "claude", modelID := "claude-sonnet-4-5-20250929", priority := 2 } ]
      ["kiro"] 0 rfl).2
    ⟨{ provider := "kiro", modelID := "claude-sonnet-4-5", priority := 1 },
      by decide, by decide⟩).1
